import Mathlib

/-!
Shallow embedding of the DAG system health checker (`health_checker.py`).

Modelling conventions:
* A NetworkX `DiGraph` is a pair of a node list and an edge list, each kept
  duplicate-free by the insert operations (`add_edge` inserts both endpoints
  and the edge only when absent, as NetworkX does).
* `random.random()` draws are an explicit parameter `draws : String → ℚ`
  giving the uniform value in `[0,1)` consumed by the probe of each component.
* `set(G.nodes())` has unspecified iteration order in Python, so the
  orchestrator takes the enumeration `all_nodes` as a parameter; theorems
  about a genuine run carry the hypothesis that `all_nodes` is a permutation
  of the node set of the graph.
* The simulated latency (`asyncio.sleep`) affects no returned value and is
  omitted; `asyncio.gather` returns results in task-creation order, i.e. in
  the order of `all_nodes`.
-/

namespace HealthChecker

/-- A directed graph as NetworkX builds it: insertion-ordered, duplicate-free
node and edge lists. -/
structure DiGraph where
  nodes : List String
  edges : List (String × String)
deriving DecidableEq, Repr

def DiGraph.empty : DiGraph := ⟨[], []⟩

/-- Embeds `G.add_node n`: insert `n` if not already present (NetworkX behaviour). -/
def addNode (G : DiGraph) (n : String) : DiGraph :=
  if n ∈ G.nodes then G else ⟨G.nodes ++ [n], G.edges⟩

/-- Embeds `G.add_edge u v`: insert both endpoints as nodes and the edge `(u, v)`,
each only if absent (NetworkX behaviour). -/
def add_edge (G : DiGraph) (u v : String) : DiGraph :=
  let G1 := addNode (addNode G u) v
  if (u, v) ∈ G1.edges then G1 else ⟨G1.nodes, G1.edges ++ [(u, v)]⟩

/-- The inner loop of `create_dag_from_json`: `for child in children: G.add_edge(parent, child)`. -/
def addChildren (G : DiGraph) (parent : String) (children : List String) : DiGraph :=
  children.foldl (fun G2 child => add_edge G2 parent child) G

/-- Embeds `create_dag_from_json`: for each parent key, for each listed child, add
the edge parent→child. A Python dict is insertion-ordered with unique keys;
we embed it as an association list. -/
def create_dag_from_json (relationships : List (String × List String)) : DiGraph :=
  relationships.foldl (fun G pc => addChildren G pc.1 pc.2) DiGraph.empty

/-- The constant `FAILURE_RATE = 0.15`, i.e. the rational `15/100`. -/
def FAILURE_RATE : ℚ := mkRat 15 100

/-- Embeds `check_component_health node_id`, with the `random.random()` draw `r`
made explicit: returns `(node_id, status, error)`. -/
def check_component_health (node_id : String) (r : ℚ) : String × String × Option String :=
  if r < FAILURE_RATE then (node_id, "DOWN", some "Service unreachable (Simulated Timeout)")
  else (node_id, "UP", none)

structure ComponentDetail where
  component : String
  status : String
  details : String
deriving DecidableEq, Repr

structure HealthReport where
  system_status : String
  component_details : List ComponentDetail
  failed_components : List String
deriving DecidableEq, Repr

/-- The Python expression `error if error else "OK"`: an absent or empty error string
becomes `"OK"`. -/
def detailsOf : Option String → String
  | some e => if e = "" then "OK" else e
  | none => "OK"

/-- One iteration of the result-processing loop in `perform_health_check`:
append the component detail, and on status `"DOWN"` record the failure and
force the system status to `"DOWN"`. -/
def processStep (acc : List ComponentDetail × List String × String)
    (r : String × String × Option String) : List ComponentDetail × List String × String :=
  let det := acc.1 ++ [⟨r.1, r.2.1, detailsOf r.2.2⟩]
  if r.2.1 = "DOWN" then (det, acc.2.1 ++ [r.1], "DOWN") else (det, acc.2.1, acc.2.2)

/-- The key-comparison order used by `component_details.sort(key=lambda x: x.component)`:
lexicographic over the character sequences of the identifiers, coinciding with the
`String` order (`String.le_iff_toList_le`) but evaluates by kernel reduction. -/
def cdLE (a b : ComponentDetail) : Prop := a.component.data ≤ b.component.data

instance : DecidableRel cdLE :=
  fun a b => inferInstanceAs (Decidable (a.component.data ≤ b.component.data))

instance : IsTotal ComponentDetail cdLE := ⟨fun a b => le_total a.component.data b.component.data⟩

instance : IsTrans ComponentDetail cdLE := ⟨fun _ _ _ h1 h2 => le_trans h1 h2⟩

theorem cdLE_iff (a b : ComponentDetail) : cdLE a b ↔ a.component ≤ b.component := by
  rw [cdLE, String.le_iff_toList_le]; rfl

/-- The raw results gathered from the concurrent probes, in task order. -/
def raw_results (all_nodes : List String) (draws : String → ℚ) :
    List (String × String × Option String) :=
  all_nodes.map fun n => check_component_health n (draws n)

/-- Embeds `perform_health_check`: probe every node, fold the results into details,
failures and system status, and sort the details by component identifier
(Python `list.sort` is stable, so a stable insertion sort produces the same
list). `all_nodes` is the iteration order of `set(G.nodes())`, a parameter
because Python leaves it unspecified; `relationships` is kept as an argument
for the graph-construction step even though only the node enumeration feeds
the probes. -/
def perform_health_check (relationships : List (String × List String))
    (all_nodes : List String) (draws : String → ℚ) : HealthReport :=
  let _G := create_dag_from_json relationships
  let raw := raw_results all_nodes draws
  let acc := raw.foldl processStep ([], [], "UP")
  { system_status := acc.2.2
    component_details := acc.1.insertionSort cdLE
    failed_components := acc.2.1 }

/-- The system status seen as a function of the raw result list alone. -/
def systemStatusOf (raw : List (String × String × Option String)) : String :=
  if raw.any (fun r => r.2.1 == "DOWN") then "DOWN" else "UP"

/-! ### Graph-construction lemmas -/

theorem addNode_edges (G : DiGraph) (n : String) : (addNode G n).edges = G.edges := by
  rw [addNode]; split <;> rfl

theorem addNode_eq_self {G : DiGraph} {n : String} (h : n ∈ G.nodes) : addNode G n = G := by
  rw [addNode]; exact if_pos h

theorem mem_addNode_nodes {G : DiGraph} {n x : String} :
    x ∈ (addNode G n).nodes ↔ x ∈ G.nodes ∨ x = n := by
  rw [addNode]; split <;> rename_i h
  · constructor
    · exact Or.inl
    · rintro (hx | rfl)
      · exact hx
      · exact h
  · simp only [List.mem_append, List.mem_singleton]

theorem mem_add_edge_nodes {G : DiGraph} {u v x : String} :
    x ∈ (add_edge G u v).nodes ↔ x ∈ G.nodes ∨ x = u ∨ x = v := by
  rw [add_edge]
  split <;> simp only [mem_addNode_nodes, or_assoc]

theorem mem_add_edge_edges {G : DiGraph} {u v : String} {e : String × String} :
    e ∈ (add_edge G u v).edges ↔ e ∈ G.edges ∨ e = (u, v) := by
  rw [add_edge]
  split <;> rename_i h <;>
    simp only [addNode_edges, List.mem_append, List.mem_singleton] at h ⊢
  constructor
  · exact Or.inl
  · rintro (hx | rfl)
    · exact hx
    · exact h

theorem addNode_nodes_nodup {G : DiGraph} (h : G.nodes.Nodup) (n : String) :
    (addNode G n).nodes.Nodup := by
  rw [addNode]; split <;> rename_i hn
  · exact h
  · simpa [List.nodup_append] using ⟨h, hn⟩

theorem add_edge_nodes_nodup {G : DiGraph} (h : G.nodes.Nodup) (u v : String) :
    (add_edge G u v).nodes.Nodup := by
  rw [add_edge]; split <;> exact addNode_nodes_nodup (addNode_nodes_nodup h u) v

theorem add_edge_edges_nodup {G : DiGraph} (h : G.edges.Nodup) (u v : String) :
    (add_edge G u v).edges.Nodup := by
  rw [add_edge]; split <;> rename_i he <;> rw [addNode_edges, addNode_edges] at he ⊢
  · exact h
  · simpa [List.nodup_append] using ⟨h, he⟩

/-- Re-adding an edge whose endpoints and arrow are already present is a no-op. -/
theorem add_edge_eq_self {G : DiGraph} {u v : String} (hu : u ∈ G.nodes) (hv : v ∈ G.nodes)
    (he : (u, v) ∈ G.edges) : add_edge G u v = G := by
  rw [add_edge, addNode_eq_self hu, addNode_eq_self hv]
  exact if_pos he

theorem addChildren_append (G : DiGraph) (p : String) (l₁ l₂ : List String) :
    addChildren G p (l₁ ++ l₂) = addChildren (addChildren G p l₁) p l₂ :=
  List.foldl_append ..

theorem mem_addChildren_nodes {p : String} {cs : List String} {G : DiGraph} {x : String} :
    x ∈ (addChildren G p cs).nodes ↔ x ∈ G.nodes ∨ (cs ≠ [] ∧ x = p) ∨ x ∈ cs := by
  induction cs generalizing G with
  | nil => simp [addChildren]
  | cons c cs ih =>
    show x ∈ (addChildren (add_edge G p c) p cs).nodes ↔ _
    rw [ih]
    simp only [mem_add_edge_nodes, List.mem_cons, ne_eq, reduceCtorEq, not_false_iff, true_and]
    by_cases hcs : cs = []
    · simp [hcs]
    · simp [hcs]
      tauto

theorem mem_addChildren_edges {p : String} {cs : List String} {G : DiGraph}
    {e : String × String} :
    e ∈ (addChildren G p cs).edges ↔ e ∈ G.edges ∨ ∃ c ∈ cs, e = (p, c) := by
  induction cs generalizing G with
  | nil => simp [addChildren]
  | cons c cs ih =>
    show e ∈ (addChildren (add_edge G p c) p cs).edges ↔ _
    rw [ih]
    simp only [mem_add_edge_edges, List.mem_cons]
    constructor
    · rintro ((he | rfl) | ⟨c', hc', rfl⟩)
      · exact Or.inl he
      · exact Or.inr ⟨c, Or.inl rfl, rfl⟩
      · exact Or.inr ⟨c', Or.inr hc', rfl⟩
    · rintro (he | ⟨c', (rfl | hc'), rfl⟩)
      · exact Or.inl (Or.inl he)
      · exact Or.inl (Or.inr rfl)
      · exact Or.inr ⟨c', hc', rfl⟩

theorem addChildren_nodes_nodup {G : DiGraph} (h : G.nodes.Nodup) (p : String)
    (cs : List String) : (addChildren G p cs).nodes.Nodup := by
  induction cs generalizing G with
  | nil => exact h
  | cons c cs ih => exact ih (add_edge_nodes_nodup h p c)

theorem addChildren_edges_nodup {G : DiGraph} (h : G.edges.Nodup) (p : String)
    (cs : List String) : (addChildren G p cs).edges.Nodup := by
  induction cs generalizing G with
  | nil => exact h
  | cons c cs ih => exact ih (add_edge_edges_nodup h p c)

theorem mem_relFold_nodes {rel : List (String × List String)} {G : DiGraph} {x : String} :
    x ∈ (rel.foldl (fun g pc => addChildren g pc.1 pc.2) G).nodes ↔
      x ∈ G.nodes ∨ ∃ pc ∈ rel, (pc.2 ≠ [] ∧ x = pc.1) ∨ x ∈ pc.2 := by
  induction rel generalizing G with
  | nil => simp
  | cons pc rel ih =>
    rw [List.foldl_cons, ih]
    simp only [mem_addChildren_nodes, List.mem_cons]
    constructor
    · rintro ((h | h) | ⟨q, hq, h⟩)
      · exact Or.inl h
      · exact Or.inr ⟨pc, Or.inl rfl, h⟩
      · exact Or.inr ⟨q, Or.inr hq, h⟩
    · rintro (h | ⟨q, (rfl | hq), h⟩)
      · exact Or.inl (Or.inl h)
      · exact Or.inl (Or.inr h)
      · exact Or.inr ⟨q, hq, h⟩

theorem mem_relFold_edges {rel : List (String × List String)} {G : DiGraph}
    {e : String × String} :
    e ∈ (rel.foldl (fun g pc => addChildren g pc.1 pc.2) G).edges ↔
      e ∈ G.edges ∨ ∃ pc ∈ rel, ∃ c ∈ pc.2, e = (pc.1, c) := by
  induction rel generalizing G with
  | nil => simp
  | cons pc rel ih =>
    rw [List.foldl_cons, ih]
    simp only [mem_addChildren_edges, List.mem_cons]
    constructor
    · rintro ((h | h) | ⟨q, hq, h⟩)
      · exact Or.inl h
      · exact Or.inr ⟨pc, Or.inl rfl, h⟩
      · exact Or.inr ⟨q, Or.inr hq, h⟩
    · rintro (h | ⟨q, (rfl | hq), h⟩)
      · exact Or.inl (Or.inl h)
      · exact Or.inl (Or.inr h)
      · exact Or.inr ⟨q, hq, h⟩

theorem mem_create_dag_nodes {rel : List (String × List String)} {x : String} :
    x ∈ (create_dag_from_json rel).nodes ↔
      ∃ pc ∈ rel, (pc.2 ≠ [] ∧ x = pc.1) ∨ x ∈ pc.2 := by
  rw [create_dag_from_json, mem_relFold_nodes]
  simp [DiGraph.empty]

theorem mem_create_dag_edges {rel : List (String × List String)} {e : String × String} :
    e ∈ (create_dag_from_json rel).edges ↔ ∃ pc ∈ rel, ∃ c ∈ pc.2, e = (pc.1, c) := by
  rw [create_dag_from_json, mem_relFold_edges]
  simp [DiGraph.empty]

theorem create_dag_nodes_nodup (rel : List (String × List String)) :
    (create_dag_from_json rel).nodes.Nodup := by
  rw [create_dag_from_json]
  have : ∀ (G : DiGraph), G.nodes.Nodup →
      (rel.foldl (fun g pc => addChildren g pc.1 pc.2) G).nodes.Nodup := by
    induction rel with
    | nil => exact fun G h => h
    | cons pc rel ih => exact fun G h => ih _ (addChildren_nodes_nodup h pc.1 pc.2)
  exact this DiGraph.empty List.nodup_nil

theorem create_dag_edges_nodup (rel : List (String × List String)) :
    (create_dag_from_json rel).edges.Nodup := by
  rw [create_dag_from_json]
  have : ∀ (G : DiGraph), G.edges.Nodup →
      (rel.foldl (fun g pc => addChildren g pc.1 pc.2) G).edges.Nodup := by
    induction rel with
    | nil => exact fun G h => h
    | cons pc rel ih => exact fun G h => ih _ (addChildren_edges_nodup h pc.1 pc.2)
  exact this DiGraph.empty List.nodup_nil

/-! ### Result-processing lemmas -/

theorem check_component_health_fst (node_id : String) (r : ℚ) :
    (check_component_health node_id r).1 = node_id := by
  rw [check_component_health]; split <;> rfl

theorem raw_results_map_fst (all_nodes : List String) (draws : String → ℚ) :
    (raw_results all_nodes draws).map Prod.fst = all_nodes := by
  rw [raw_results, List.map_map]
  exact List.map_congr_left (fun n _ => check_component_health_fst n (draws n)) |>.trans
    (List.map_id _)

theorem raw_results_length (all_nodes : List String) (draws : String → ℚ) :
    (raw_results all_nodes draws).length = all_nodes.length :=
  List.length_map _ _

/-- Unrolling the result-processing `for` loop: the details accumulate in raw
order, the failures are the `"DOWN"` results in raw order, and the status ends
`"DOWN"` exactly when some result is `"DOWN"`. -/
theorem foldl_processStep (raw : List (String × String × Option String))
    (cd : List ComponentDetail) (fc : List String) (st : String) :
    raw.foldl processStep (cd, fc, st) =
      (cd ++ raw.map (fun r => ⟨r.1, r.2.1, detailsOf r.2.2⟩),
       fc ++ (raw.filter (fun r => r.2.1 == "DOWN")).map Prod.fst,
       if raw.any (fun r => r.2.1 == "DOWN") then "DOWN" else st) := by
  induction raw generalizing cd fc st with
  | nil => simp
  | cons r rest ih =>
    rw [List.foldl_cons, processStep]
    by_cases h : r.2.1 = "DOWN"
    · rw [if_pos h, ih]
      simp [List.filter_cons, List.any_cons, h]
    · rw [if_neg h, ih]
      have hb : (r.2.1 == "DOWN") = false := beq_eq_false_iff_ne.mpr h
      simp [List.filter_cons, List.any_cons, hb]
      rw [hb]
      rfl

/-- The function `perform_health_check`, written as its three independent outputs. -/
theorem perform_health_check_eq (rel : List (String × List String))
    (all_nodes : List String) (draws : String → ℚ) :
    perform_health_check rel all_nodes draws =
      { system_status := systemStatusOf (raw_results all_nodes draws)
        component_details :=
          ((raw_results all_nodes draws).map
            (fun r => ⟨r.1, r.2.1, detailsOf r.2.2⟩)).insertionSort cdLE
        failed_components :=
          ((raw_results all_nodes draws).filter
            (fun r => r.2.1 == "DOWN")).map Prod.fst } := by
  rw [perform_health_check, systemStatusOf]
  simp only [foldl_processStep, List.nil_append]

theorem addChildren_cons (G : DiGraph) (p c : String) (cs : List String) :
    addChildren G p (c :: cs) = addChildren (add_edge G p c) p cs := rfl

theorem create_dag_append_cons (rel rel₂ : List (String × List String))
    (pcs : String × List String) :
    create_dag_from_json (rel ++ pcs :: rel₂) =
      rel₂.foldl (fun g pc => addChildren g pc.1 pc.2)
        (addChildren (rel.foldl (fun g pc => addChildren g pc.1 pc.2) DiGraph.empty)
          pcs.1 pcs.2) := by
  rw [create_dag_from_json, List.foldl_append, List.foldl_cons]

/-! ### Claim theorems -/

/-- C7: the graph builder is deterministic and idempotent — building from the
same mapping twice yields the same graph, node and edge lists are
duplicate-free (sets, not multisets), re-adding an edge is a no-op, and a child
listed twice under the same parent yields the same graph as listing it once. -/
theorem c7_graph_builder_idempotent (rel rel₂ : List (String × List String))
    (G : DiGraph) (u v p c : String) (cs₁ cs₂ cs₃ : List String) :
    create_dag_from_json rel = create_dag_from_json rel ∧
    (create_dag_from_json rel).nodes.Nodup ∧
    (create_dag_from_json rel).edges.Nodup ∧
    add_edge (add_edge G u v) u v = add_edge G u v ∧
    create_dag_from_json (rel ++ (p, cs₁ ++ c :: (cs₂ ++ c :: cs₃)) :: rel₂) =
      create_dag_from_json (rel ++ (p, cs₁ ++ c :: (cs₂ ++ cs₃)) :: rel₂) := by
  refine ⟨rfl, create_dag_nodes_nodup rel, create_dag_edges_nodup rel, ?_, ?_⟩
  · exact add_edge_eq_self (mem_add_edge_nodes.mpr (Or.inr (Or.inl rfl)))
      (mem_add_edge_nodes.mpr (Or.inr (Or.inr rfl)))
      (mem_add_edge_edges.mpr (Or.inr rfl))
  · rw [create_dag_append_cons, create_dag_append_cons]
    congr 1
    set H := rel.foldl (fun g pc => addChildren g pc.1 pc.2) DiGraph.empty with hH
    set K := addChildren (add_edge (addChildren H p cs₁) p c) p cs₂ with hK
    have hpn : p ∈ K.nodes :=
      mem_addChildren_nodes.mpr (Or.inl (mem_add_edge_nodes.mpr (Or.inr (Or.inl rfl))))
    have hcn : c ∈ K.nodes :=
      mem_addChildren_nodes.mpr (Or.inl (mem_add_edge_nodes.mpr (Or.inr (Or.inr rfl))))
    have hce : (p, c) ∈ K.edges :=
      mem_addChildren_edges.mpr (Or.inl (mem_add_edge_edges.mpr (Or.inr rfl)))
    calc addChildren H p (cs₁ ++ c :: (cs₂ ++ c :: cs₃))
        = addChildren (add_edge K p c) p cs₃ := by
          rw [addChildren_append, addChildren_cons, addChildren_append, addChildren_cons]
      _ = addChildren K p cs₃ := by rw [add_edge_eq_self hpn hcn hce]
      _ = addChildren H p (cs₁ ++ c :: (cs₂ ++ cs₃)) := by
          rw [addChildren_append, addChildren_cons, addChildren_append]

/-- C8: the probe returns DOWN with the fixed detail string exactly when the
uniform draw is below the failure-rate threshold `FAILURE_RATE = 0.15`, and UP
with no detail otherwise. -/
theorem c8_probe_failure_simulation (node_id : String) (r : ℚ) :
    FAILURE_RATE = 15 / 100 ∧
    (r < FAILURE_RATE →
      check_component_health node_id r =
        (node_id, "DOWN", some "Service unreachable (Simulated Timeout)")) ∧
    (FAILURE_RATE ≤ r →
      check_component_health node_id r = (node_id, "UP", none)) := by
  refine ⟨?_, fun h => ?_, fun h => ?_⟩
  · rw [FAILURE_RATE, Rat.mkRat_eq_divInt, Rat.divInt_eq_div]
    norm_num
  · rw [check_component_health, if_pos h]
  · rw [check_component_health, if_neg (not_lt.mpr h)]

/-- Witness for C8 at concrete draws `0` (below the threshold) and `1/2`
(above it). -/
theorem c8_probe_failure_simulation_witness :
    check_component_health ("db") 0 =
      ("db", "DOWN", some "Service unreachable (Simulated Timeout)") ∧
    check_component_health ("db") (mkRat 1 2) = ("db", "UP", none) :=
  ⟨(c8_probe_failure_simulation ("db") 0).2.1 (by decide),
   (c8_probe_failure_simulation ("db") (mkRat 1 2)).2.2 (by decide)⟩

/-- C9: self-referencing entries and cycles are accepted as given — every
listed parent→child pair becomes an edge (including self-loops), and each
involved identifier occurs exactly once in the node list. -/
theorem c9_self_loops_and_cycles_accepted (rel : List (String × List String))
    (p c : String) (cs : List String) (hmem : (p, cs) ∈ rel) (hc : c ∈ cs) :
    (p, c) ∈ (create_dag_from_json rel).edges ∧
    (create_dag_from_json rel).nodes.count p = 1 ∧
    (create_dag_from_json rel).nodes.count c = 1 := by
  have hcs : cs ≠ [] := by
    rintro rfl
    exact List.not_mem_nil c hc
  have hp : p ∈ (create_dag_from_json rel).nodes :=
    mem_create_dag_nodes.mpr ⟨(p, cs), hmem, Or.inl ⟨hcs, rfl⟩⟩
  have hcn : c ∈ (create_dag_from_json rel).nodes :=
    mem_create_dag_nodes.mpr ⟨(p, cs), hmem, Or.inr hc⟩
  exact ⟨mem_create_dag_edges.mpr ⟨(p, cs), hmem, c, hc, rfl⟩,
    List.count_eq_one_of_mem (create_dag_nodes_nodup rel) hp,
    List.count_eq_one_of_mem (create_dag_nodes_nodup rel) hcn⟩

/-- Witness for C9 on a mapping with a self-loop `A→A` and a cycle `A→B→A`. -/
theorem c9_self_loops_and_cycles_accepted_witness :
    ("A", "A") ∈ (create_dag_from_json [("A", ["A", "B"]), ("B", ["A"])]).edges ∧
    (create_dag_from_json [("A", ["A", "B"]), ("B", ["A"])]).nodes.count ("A") = 1 := by
  have h := c9_self_loops_and_cycles_accepted [("A", ["A", "B"]), ("B", ["A"])]
    "A" "A" ["A", "B"] (by decide) (by decide)
  exact ⟨h.1, h.2.1⟩

/-- C2 counterexample: for the mapping `{"A": []}`, `"A"` is a key of the
mapping, yet the built graph has no nodes at all — the node set is not the
union of all keys and child identifiers once a key has an empty child list. -/
theorem c2_counterexample_empty_child_list :
    ("A", ([] : List String)) ∈ [("A", ([] : List String))] ∧
    (create_dag_from_json [("A", ([] : List String))]).nodes = [] ∧
    "A" ∉ (create_dag_from_json [("A", ([] : List String))]).nodes := by decide

/-- C2 (amended): the node set of the built graph is the union of all keys
having a NON-empty child list and all identifiers appearing in child lists;
a key whose child list is empty contributes no node. -/
theorem c2_node_set_characterization (rel : List (String × List String)) (x : String) :
    x ∈ (create_dag_from_json rel).nodes ↔
      ∃ pc ∈ rel, (pc.2 ≠ [] ∧ x = pc.1) ∨ x ∈ pc.2 :=
  mem_create_dag_nodes

/-- C6: the empty relationship mapping yields the empty graph, and any
orchestration run over it returns a valid report with status `"UP"`, empty
`component_details` and empty `failed_components`. -/
theorem c6_empty_mapping_yields_up_report (all_nodes : List String) (draws : String → ℚ)
    (hnodes : all_nodes.Perm (create_dag_from_json []).nodes) :
    create_dag_from_json [] = DiGraph.empty ∧
    perform_health_check [] all_nodes draws =
      { system_status := "UP", component_details := [], failed_components := [] } := by
  refine ⟨rfl, ?_⟩
  have h : all_nodes = [] := List.Perm.eq_nil hnodes
  subst h
  rfl

/-- Witness for C6: the concrete empty run. -/
theorem c6_empty_mapping_yields_up_report_witness :
    create_dag_from_json [] = DiGraph.empty ∧
    perform_health_check [] [] (fun _ => 0) =
      { system_status := "UP", component_details := [], failed_components := [] } :=
  c6_empty_mapping_yields_up_report [] (fun _ => 0) (by decide)

/-- C3: `system_status` is `"DOWN"` iff some probe result has status `"DOWN"`,
equivalently iff `failed_components` is non-empty, `"UP"` otherwise, and it is
a pure function of the raw result list alone (`systemStatusOf`). -/
theorem c3_system_status_characterization (rel : List (String × List String))
    (all_nodes : List String) (draws : String → ℚ) :
    ((perform_health_check rel all_nodes draws).system_status = "DOWN" ↔
      ∃ r ∈ raw_results all_nodes draws, r.2.1 = "DOWN") ∧
    ((perform_health_check rel all_nodes draws).system_status = "DOWN" ↔
      (perform_health_check rel all_nodes draws).failed_components ≠ []) ∧
    ((perform_health_check rel all_nodes draws).system_status = "UP" ↔
      (perform_health_check rel all_nodes draws).failed_components = []) ∧
    (perform_health_check rel all_nodes draws).system_status =
      systemStatusOf (raw_results all_nodes draws) := by
  rw [perform_health_check_eq]
  dsimp only
  set raw := raw_results all_nodes draws with hraw
  have hany : (raw.any fun r => r.2.1 == "DOWN") = true ↔ ∃ r ∈ raw, r.2.1 = "DOWN" := by
    simp [List.any_eq_true]
  have hfil : ((raw.filter fun r => r.2.1 == "DOWN").map Prod.fst = []) ↔
      ¬ ∃ r ∈ raw, r.2.1 = "DOWN" := by
    constructor
    · intro hnil hex
      obtain ⟨r, hr, hdown⟩ := hex
      have hm : r.1 ∈ (raw.filter fun r => r.2.1 == "DOWN").map Prod.fst :=
        List.mem_map.mpr ⟨r, List.mem_filter.mpr ⟨hr, beq_iff_eq.mpr hdown⟩, rfl⟩
      rw [hnil] at hm
      exact List.not_mem_nil _ hm
    · intro hnex
      by_contra hne
      obtain ⟨x, hx⟩ := List.exists_mem_of_ne_nil _ hne
      obtain ⟨r, hrf, rfl⟩ := List.mem_map.mp hx
      obtain ⟨hr, hdown⟩ := List.mem_filter.mp hrf
      exact hnex ⟨r, hr, beq_iff_eq.mp hdown⟩
  rw [systemStatusOf]
  by_cases h : ∃ r ∈ raw, r.2.1 = "DOWN"
  · rw [if_pos (hany.mpr h)]
    exact ⟨iff_of_true rfl h,
      iff_of_true rfl (fun hnil => hfil.mp hnil h),
      iff_of_false (by decide) (fun hnil => hfil.mp hnil h), rfl⟩
  · rw [if_neg (fun hb => h (hany.mp hb))]
    exact ⟨iff_of_false (by decide) h,
      iff_of_false (by decide) (fun hne => hne (hfil.mpr h)),
      iff_of_true rfl (hfil.mpr h), rfl⟩

/-- Witness for C3: a concrete all-DOWN run agrees with `systemStatusOf`. -/
theorem c3_system_status_characterization_witness :
    (perform_health_check [("A", ["B"])] ["A", "B"] fun _ => 0).system_status =
      systemStatusOf (raw_results ["A", "B"] fun _ => 0) :=
  (c3_system_status_characterization [("A", ["B"])] ["A", "B"] fun _ => 0).2.2.2

/-- C1 counterexample: probing the node set `{B, A}` of the mapping
`{"B": ["A"]}` in the iteration order `["B", "A"]` with both probes DOWN makes
`failed_components = ["B", "A"]`, while the DOWN subsequence of the sorted
`component_details` is `["A", "B"]` — the code never sorts
`failed_components`, so it is not that subsequence in the same order. -/
theorem c1_counterexample_failed_order :
    ["B", "A"].Perm (create_dag_from_json [("B", ["A"])]).nodes ∧
    (perform_health_check [("B", ["A"])] ["B", "A"] fun _ => 0).failed_components = ["B", "A"] ∧
    (((perform_health_check [("B", ["A"])] ["B", "A"] fun _ => 0).component_details.filter
      fun d => d.status == "DOWN").map fun d => d.component) = ["A", "B"] ∧
    (perform_health_check [("B", ["A"])] ["B", "A"] fun _ => 0).failed_components ≠
      (((perform_health_check [("B", ["A"])] ["B", "A"] fun _ => 0).component_details.filter
        fun d => d.status == "DOWN").map fun d => d.component) := by decide

/-- C1 (amended): `failed_components` contains exactly the components of the
DOWN entries of `component_details` — it is a permutation of the DOWN
subsequence of the sorted details (it lists them in probe order, which need
not be the sorted order). -/
theorem c1_failed_components_perm_down_subsequence (rel : List (String × List String))
    (all_nodes : List String) (draws : String → ℚ) :
    ((perform_health_check rel all_nodes draws).failed_components).Perm
      (((perform_health_check rel all_nodes draws).component_details.filter
        fun d => d.status == "DOWN").map fun d => d.component) := by
  rw [perform_health_check_eq]
  dsimp only
  set raw := raw_results all_nodes draws with hraw
  have hperm := (List.perm_insertionSort cdLE
    (raw.map fun r => ⟨r.1, r.2.1, detailsOf r.2.2⟩)).filter
      (fun d => d.status == "DOWN")
  have h2 := hperm.map (fun d => d.component)
  rw [List.filter_map, List.map_map] at h2
  exact h2.symm

/-- C10: every entry of `component_details` has a non-empty `details` field:
`"OK"` when its status is `"UP"`, the fixed timeout message when `"DOWN"`. -/
theorem c10_details_defaulted_to_ok (rel : List (String × List String))
    (all_nodes : List String) (draws : String → ℚ) (d : ComponentDetail)
    (hd : d ∈ (perform_health_check rel all_nodes draws).component_details) :
    (d.status = "UP" → d.details = "OK") ∧
    (d.status = "DOWN" → d.details = "Service unreachable (Simulated Timeout)") ∧
    d.details ≠ "" := by
  rw [perform_health_check_eq] at hd
  dsimp only at hd
  rw [List.mem_insertionSort, List.mem_map] at hd
  obtain ⟨r, hr, rfl⟩ := hd
  rw [raw_results, List.mem_map] at hr
  obtain ⟨n, _, rfl⟩ := hr
  rw [check_component_health]
  by_cases h : draws n < FAILURE_RATE
  · rw [if_pos h]
    dsimp only
    decide
  · rw [if_neg h]
    dsimp only
    decide

/-- Witness for C10: a DOWN entry of a concrete run has the fixed detail. -/
theorem c10_details_defaulted_to_ok_witness :
    ((⟨"A", "DOWN", "Service unreachable (Simulated Timeout)"⟩ : ComponentDetail).status = "DOWN" →
      (⟨"A", "DOWN", "Service unreachable (Simulated Timeout)"⟩ : ComponentDetail).details =
        "Service unreachable (Simulated Timeout)") ∧
    (⟨"A", "DOWN", "Service unreachable (Simulated Timeout)"⟩ : ComponentDetail).details ≠ "" :=
  ((c10_details_defaulted_to_ok [("A", ["B"])] ["A", "B"] (fun _ => 0)
    ⟨"A", "DOWN", "Service unreachable (Simulated Timeout)"⟩ (by decide))).2

/-- C4: one `component_details` entry per unique graph node — the length
matches the node count and each identifier occurs as a component exactly once
if it is a node and never otherwise. -/
theorem c4_exactly_one_probe_per_node (rel : List (String × List String))
    (all_nodes : List String) (draws : String → ℚ)
    (hnodes : all_nodes.Perm (create_dag_from_json rel).nodes) :
    (perform_health_check rel all_nodes draws).component_details.length =
      (create_dag_from_json rel).nodes.length ∧
    ∀ x : String,
      ((perform_health_check rel all_nodes draws).component_details.map
        fun d => d.component).count x =
        if x ∈ (create_dag_from_json rel).nodes then 1 else 0 := by
  rw [perform_health_check_eq]
  dsimp only
  have hsort := List.perm_insertionSort cdLE
    ((raw_results all_nodes draws).map fun r => ⟨r.1, r.2.1, detailsOf r.2.2⟩)
  have hcomp : ((((raw_results all_nodes draws).map
      fun r => (⟨r.1, r.2.1, detailsOf r.2.2⟩ : ComponentDetail)).insertionSort cdLE).map
        fun d => d.component).Perm (create_dag_from_json rel).nodes := by
    have h1 := hsort.map fun d => d.component
    rw [List.map_map] at h1
    have h2 : ((raw_results all_nodes draws).map
        ((fun d : ComponentDetail => d.component) ∘ fun r => ⟨r.1, r.2.1, detailsOf r.2.2⟩)) =
        all_nodes := raw_results_map_fst all_nodes draws
    rw [h2] at h1
    exact h1.trans hnodes
  constructor
  · rw [hsort.length_eq, List.length_map, raw_results_length, hnodes.length_eq]
  · intro x
    rw [hcomp.count_eq]
    by_cases hx : x ∈ (create_dag_from_json rel).nodes
    · rw [if_pos hx]
      exact List.count_eq_one_of_mem (create_dag_nodes_nodup rel) hx
    · rw [if_neg hx]
      exact List.count_eq_zero_of_not_mem hx

/-- Witness for C4 on the scenario mapping of the spec, probed in reverse order. -/
theorem c4_exactly_one_probe_per_node_witness :
    (perform_health_check [("A", ["B", "C"]), ("B", ["D"])] ["D", "C", "B", "A"]
      fun _ => mkRat 1 2).component_details.length =
      (create_dag_from_json [("A", ["B", "C"]), ("B", ["D"])]).nodes.length :=
  (c4_exactly_one_probe_per_node [("A", ["B", "C"]), ("B", ["D"])] ["D", "C", "B", "A"]
    (fun _ => mkRat 1 2) (by decide)).1

/-- C5: for a non-empty node set, `component_details` is strictly ascending in
the component identifier. -/
theorem c5_component_details_strictly_sorted (rel : List (String × List String))
    (all_nodes : List String) (draws : String → ℚ)
    (hnodes : all_nodes.Perm (create_dag_from_json rel).nodes)
    (_hne : (create_dag_from_json rel).nodes ≠ []) :
    (perform_health_check rel all_nodes draws).component_details.Pairwise
      fun a b => a.component < b.component := by
  rw [perform_health_check_eq]
  dsimp only
  have hsorted : (((raw_results all_nodes draws).map
      fun r => (⟨r.1, r.2.1, detailsOf r.2.2⟩ : ComponentDetail)).insertionSort cdLE).Pairwise
        cdLE :=
    List.sorted_insertionSort cdLE _
  have hnodup : ((((raw_results all_nodes draws).map
      fun r => (⟨r.1, r.2.1, detailsOf r.2.2⟩ : ComponentDetail)).insertionSort cdLE).map
        fun d => d.component).Nodup := by
    have h1 := (List.perm_insertionSort cdLE ((raw_results all_nodes draws).map
      fun r => (⟨r.1, r.2.1, detailsOf r.2.2⟩ : ComponentDetail))).map fun d => d.component
    rw [List.map_map] at h1
    have h2 : ((raw_results all_nodes draws).map
        ((fun d : ComponentDetail => d.component) ∘ fun r => ⟨r.1, r.2.1, detailsOf r.2.2⟩)) =
        all_nodes := raw_results_map_fst all_nodes draws
    rw [h2] at h1
    exact ((h1.trans hnodes).nodup_iff).mpr (create_dag_nodes_nodup rel)
  have hpairne := List.pairwise_map.mp hnodup
  exact (hsorted.and hpairne).imp fun hab =>
    lt_of_le_of_ne ((cdLE_iff _ _).mp hab.1) hab.2

/-- Witness for C5 on the scenario mapping of the spec, probed in reverse order. -/
theorem c5_component_details_strictly_sorted_witness :
    (perform_health_check [("A", ["B", "C"]), ("B", ["D"])] ["D", "C", "B", "A"]
      fun _ => 0).component_details.Pairwise
        fun a b => a.component < b.component :=
  c5_component_details_strictly_sorted [("A", ["B", "C"]), ("B", ["D"])] ["D", "C", "B", "A"]
    (fun _ => 0) (by decide) (by decide)

end HealthChecker
